import Mathlib

/-!
Shallow embedding of `CrossSeedAutoDL.py` (claabs/Cross-Seed-AutoDL).

The program cross-references local media releases against a Jackett
aggregator: it builds a search query per release, filters candidates by a
size tolerance, and keeps a persistent history ledger of searched basenames
and grabbed torrent detail-page paths.

Conventions of the embedding:
* Python ints are `Int`/`Nat` (Python ints are unbounded, no wrap-around).
* Python `dict.get` that may return `None` is `Option`.
* Code that can raise an uncaught exception returns `Except Unit _` or an
  explicit `err` constructor.
* `exit(1)` is the `exited 1` outcome of a search step.
* Network responses are an explicit oracle value (`NetResp`), since the
  program treats the HTTP layer as a black box.
-/

namespace CrossSeedAutoDL

/-- Parsed command-line arguments (the global `ARGS`). -/
structure Config where
  parse_dir : Bool
  ignore_history : Bool
  strict_size : Bool
  trackers : Option String
  jackett_url : String
  api_key : String

/-- The dictionary returned by `guessit` restricted to the keys the program
reads: `title`, `year`, `type`, `season`, `episode`.  Keys read with `.get`
are `Option`; `type` is read with `[...]` only inside the category lookup,
and is modelled as the guessed type string. -/
structure GuessedData where
  title : Option String
  year : Option Int
  type : String
  season : Option Int
  episode : Option Int

/-- `ReleaseData.get_release_data`: the local release descriptor. `size` is
`none` when `_get_total_size` failed (dangling link). -/
structure LocalReleaseData where
  main_path : String
  basename : String
  size : Option Int
  guessed_data : GuessedData

/-- One entry of the aggregator's `Results` array, restricted to
`Searcher.keys_from_result` (the keys the program keeps). -/
structure RawResult where
  Tracker : String
  TrackerId : String
  CategoryDesc : String
  Title : String
  Link : Option String
  Details : String
  Category : Int
  Size : Int
  Imdb : Option String
deriving DecidableEq

/-- The in-memory history ledger (`SearchHistory.json` contents):
`basenames_searched` list and the `download_history` dict from tracker id to
the list of normalized detail-page paths. An absent dict key is `none`. -/
structure SearchHistory where
  basenames_searched : List String
  download_history : String → Option (List String)

/- ------------------------------------------------------------------ -/
/- HistoryManager                                                      -/
/- ------------------------------------------------------------------ -/

/-- The `^https?://` part of `HistoryManager.url_path_re`
(`r'^https?://[^/]+(.+)'`): strips the scheme, preferring the `https`
alternative exactly as the greedy `s?` does. -/
def schemeStrip : List Char → Option (List Char)
  | 'h' :: 't' :: 't' :: 'p' :: 's' :: ':' :: '/' :: '/' :: r => some r
  | 'h' :: 't' :: 't' :: 'p' :: ':' :: '/' :: '/' :: r => some r
  | _ => none

/-- The final `(.+)` of `url_path_re`: needs at least one character, `.`
does not match a newline, and the greedy group captures the maximal
newline-free run. -/
def dotPlus (cs : List Char) : Option (List Char) :=
  match cs with
  | [] => none
  | c :: _ => if c = '\n' then none else some (cs.takeWhile (fun x => x ≠ '\n'))

/-- The `[^/]+(.+)` part of `url_path_re` with Python's greedy backtracking:
`[^/]+` consumes as much as possible, giving characters back one at a time
until `(.+)` can match; returns the captured group 1. -/
def seg : List Char → Option (List Char)
  | [] => none
  | c :: rest =>
    if c = '/' then none
    else
      match seg rest with
      | some g => some g
      | none => dotPlus rest

/-- `re.search(HistoryManager.url_path_re, s)` followed by `.group(1)`:
`none` models "no match" (an `AttributeError` on `.group`). -/
def url_path (s : String) : Option String :=
  match schemeStrip s.data with
  | none => none
  | some rest => (seg rest).map (fun g => String.mk g)

/-- `HistoryManager.is_file_previously_searched`: linear scan over
`basenames_searched` comparing with `==`. -/
def is_file_previously_searched (basename : String) (h : SearchHistory) : Bool :=
  decide (basename ∈ h.basenames_searched)

/-- `HistoryManager.is_torrent_previously_grabbed`. The regex is applied to
`result['Details']` and `.group(1)` raises when there is no match
(`Except.error`). -/
def is_torrent_previously_grabbed (result : RawResult) (h : SearchHistory) :
    Except Unit Bool :=
  match url_path result.Details with
  | none => .error ()
  | some p =>
    match h.download_history result.TrackerId with
    | none => .ok false
    | some l => .ok (decide (p ∈ l))

/-- `HistoryManager.append_to_download_history`: normalize the details URL
(raising on no match), create the tracker's list when absent, and append the
path only when it is not already present. -/
def append_to_download_history (details_url tracker_id : String)
    (h : SearchHistory) : Except Unit SearchHistory :=
  match url_path details_url with
  | none => .error ()
  | some p =>
    let base := (h.download_history tracker_id).getD []
    let newList := if p ∈ base then base else base ++ [p]
    .ok { h with
      download_history := fun t =>
        if t = tracker_id then some newList else h.download_history t }

/- ------------------------------------------------------------------ -/
/- Searcher                                                            -/
/- ------------------------------------------------------------------ -/

/-- `Searcher.MiB = 1024**2`. -/
def MiB : Nat := 1024 ^ 2

/-- `Searcher.size_differences_strictness = {True: 0, False: 5 * MiB}`. -/
def size_differences_strictness (strict : Bool) : Nat :=
  if strict then 0 else 5 * MiB

/-- `Searcher.max_size_difference = size_differences_strictness[ARGS.strict_size]`. -/
def max_size_difference (cfg : Config) : Nat :=
  size_differences_strictness cfg.strict_size

/-- `Searcher.category_types = {'movie': 2000, 'episode': 5000}`. -/
def category_types : List (String × Int) :=
  [("movie", 2000), ("episode", 5000)]

/-- The `$` of a Python regex: consumes nothing, but allows one trailing
newline.  `stripDollar cs = []` states that the position is at `$`
(i.e. `cs` is empty or a single trailing newline); applied to the tail of a
bracket group it removes the one newline `$` may precede. -/
def stripDollar (cs : List Char) : List Char :=
  match cs.getLast? with
  | some c => if c = '\n' then cs.dropLast else cs
  | none => cs

/-- The optional group `( \[.*/.*\])?` of `Searcher._reformat_release_name`
matched against the whole remainder up to `$`: a space, `[`, any
newline-free body that contains `/` and ends with `]`. -/
def bracketTail (cs : List Char) : Bool :=
  match cs with
  | c1 :: c2 :: rest =>
    decide (c1 = ' ') && decide (c2 = '[') &&
      (let r := stripDollar rest
       decide (r.getLast? = some ']') && decide ('/' ∈ r.dropLast) &&
         decide ('\n' ∉ r.dropLast))
  | _ => false

/-- The lazy `^(.+?)` of `_reformat_release_name`'s pattern
`r'^(.+?)( \[.*/.*\])?$'`: extend the shortest nonempty prefix until either
the bracket group or `$` matches the remainder; `acc` is the prefix
consumed so far. -/
def findGroup1 : List Char → List Char → Option (List Char)
  | _, [] => none
  | acc, c :: rest =>
    if c = '\n' then none
    else if bracketTail rest = true ∨ stripDollar rest = [] then some (acc ++ [c])
    else findGroup1 (acc ++ [c]) rest

/-- `Searcher._reformat_release_name`: return group 1 when the pattern
matches, else the name unchanged. -/
def reformat_release_name (release_name : String) : String :=
  match findGroup1 [] release_name.data with
  | some g => String.mk g
  | none => release_name

/-- `Searcher._trim_results`: keep the canonical keys (the record already
holds exactly those) and reformat the title. -/
def trim_results (search_results : List RawResult) : List RawResult :=
  search_results.map (fun r => { r with Title := reformat_release_name r.Title })

/-- `Searcher._get_matching_results`: keep candidates whose size differs
from the local size by at most the tolerance, doubled for `'Blutopia'`. -/
def get_matching_results (cfg : Config) (search_results : List RawResult)
    (size : Int) : List RawResult :=
  search_results.filter (fun result =>
    let msd := max_size_difference cfg
    let msd := if result.Tracker = "Blutopia" then msd * 2 else msd
    decide ((result.Size - size).natAbs ≤ msd))

/-- `Searcher._is_skip_worthy`: previously-searched basename (only when the
history is honored and `--parse-dir` is on), or unknown size. -/
def is_skip_worthy (cfg : Config) (lrd : LocalReleaseData)
    (h : SearchHistory) : Bool :=
  (!cfg.ignore_history && (is_file_previously_searched lrd.basename h && cfg.parse_dir))
    || lrd.size.isNone

/-- Python `str.strip('/')` as used on the Jackett URL. -/
def strip_slashes (s : String) : String :=
  String.mk (((s.data.dropWhile (fun c => c = '/')).reverse.dropWhile
    (fun c => c = '/')).reverse)

/-- `Searcher._get_full_search_url`: `none` models the `KeyError` raised by
`category_types[...]` for a guessed type outside the dict; otherwise the
base URL and the ordered query parameters. -/
def get_full_search_url (cfg : Config) (search_query : String)
    (lrd : LocalReleaseData) : Option (String × List (String × String)) :=
  match category_types.lookup lrd.guessed_data.type with
  | none => none
  | some cat =>
    let base := strip_slashes cfg.jackett_url ++ "/api/v2.0/indexers/all/results?"
    let params := [("apikey", cfg.api_key), ("Query", search_query)]
    let params := params ++ (match cfg.trackers with
      | some t => [("Tracker[]", t)]
      | none => [])
    let params := params ++ [("Category[]", toString cat)]
    let params := params ++ (match lrd.guessed_data.season with
      | some s => [("season", toString s)]
      | none => [])
    let params := params ++ (match lrd.guessed_data.episode with
      | some e => [("episode", toString e)]
      | none => [])
    some (base, params)

/-- Oracle for the HTTP layer of one search: both attempts failed (or the
response was falsy), the body failed to decode as JSON, or a decoded body
with its `Indexers` and `Results` arrays. -/
inductive NetResp where
  | failure
  | badJson
  | ok (indexers : List String) (results : List RawResult)

/-- Outcome of one `Searcher.search` call: `exited c` models `exit(c)`,
`err` an uncaught exception, `ok` a normal return value. -/
inductive SearchOutcome where
  | exited (code : Nat)
  | err
  | ok (results : List RawResult)
deriving DecidableEq

/-- Result of one `Searcher.search` call: whether `requests.get` was
reached, the outcome, and the (possibly mutated) history ledger. -/
structure SearchStep where
  requested : Bool
  outcome : SearchOutcome
  hist : SearchHistory

/-- Lines 148-151 of `Searcher.search`: append the basename unless already
present. -/
def record_basename (basename : String) (h : SearchHistory) : SearchHistory :=
  if basename ∈ h.basenames_searched then h
  else { h with basenames_searched := h.basenames_searched ++ [basename] }

/-- `Searcher.search`: skip check, query construction (`['title']` and the
category lookup may raise), network request with the oracle's outcome,
fatal `exit(1)` on an empty `Indexers` list, basename recording, then
trimming and size matching. -/
def search (cfg : Config) (lrd : LocalReleaseData) (h : SearchHistory)
    (net : NetResp) : SearchStep :=
  if is_skip_worthy cfg lrd h then ⟨false, .ok [], h⟩
  else
    match lrd.guessed_data.title with
    | none => ⟨false, .err, h⟩
    | some title =>
      let search_query := title ++ (match lrd.guessed_data.year with
        | some y => " " ++ toString y
        | none => "")
      match get_full_search_url cfg search_query lrd with
      | none => ⟨false, .err, h⟩
      | some _ =>
        match net with
        | .failure => ⟨true, .ok [], h⟩
        | .badJson => ⟨true, .ok [], h⟩
        | .ok indexers results =>
          if indexers.isEmpty then ⟨true, .exited 1, h⟩
          else
            let h2 := record_basename lrd.basename h
            match lrd.size with
            | none => ⟨true, .err, h2⟩
            | some size =>
              ⟨true, .ok (get_matching_results cfg (trim_results results) size), h2⟩

/- ------------------------------------------------------------------ -/
/- Downloader                                                          -/
/- ------------------------------------------------------------------ -/

/-- Last index of `c` in `cs` (Python `str.rfind`, `none` for -1). -/
def lastIdx (cs : List Char) (c : Char) : Option Nat :=
  ((cs.enum.filter (fun p => p.2 = c)).getLast?).map (fun p => p.1)

/-- `os.path.splitext` (posix): split at the last dot after the last `/`,
unless the filename part up to that dot is all dots. -/
def splitext (p : String) : String × String :=
  let cs := p.data
  let sep : Nat :=
    match lastIdx cs '/' with
    | some i => i + 1
    | none => 0
  match lastIdx cs '.' with
  | none => (p, "")
  | some d =>
    if sep ≤ d then
      if ((List.range d).filter (fun i => sep ≤ i)).any
          (fun i => cs.get? i ≠ some '.') then
        (String.mk (cs.take d), String.mk (cs.drop d))
      else (p, "")
    else (p, "")

/-- The `while os.path.isfile` loop of `Downloader._validate_path`, with the
set of existing files as the `taken` list and explicit fuel (the loop
terminates as soon as a candidate name is free). -/
def validateLoop (taken : List String) (filename ext : String) :
    Nat → Nat → String → String
  | 0, _, fp => fp
  | fuel + 1, n, fp =>
    if fp ∈ taken then
      validateLoop taken filename ext fuel (n + 1)
        (filename ++ " (" ++ toString n ++ ")" ++ ext)
    else fp

/-- `Downloader._validate_path`: split off the extension once, then append
`" (n)"` for n = 1, 2, ... until the name is free. -/
def validate_path (taken : List String) (file_path : String) : String :=
  let fe := splitext file_path
  validateLoop taken fe.1 fe.2 (taken.length + 1) 1 file_path

/-- `Downloader.download`, restricted to its ledger effect: skip on a
missing link, skip previously grabbed candidates unless the history is
ignored, then record the grab.  The torrent payload write is not part of
the ledger and is not modelled. -/
def download (cfg : Config) (result : RawResult) (h : SearchHistory) :
    Except Unit SearchHistory :=
  match result.Link with
  | none => .ok h
  | some _ =>
    if !cfg.ignore_history then
      match is_torrent_previously_grabbed result h with
      | .error e => .error e
      | .ok true => .ok h
      | .ok false => append_to_download_history result.Details result.TrackerId h
    else
      append_to_download_history result.Details result.TrackerId h

/-- The `for result in matching_results` loop of `main`. -/
def downloadAll (cfg : Config) (results : List RawResult) (h : SearchHistory) :
    Except Unit SearchHistory :=
  match results with
  | [] => .ok h
  | r :: rest =>
    match download cfg r h with
    | .error e => .error e
    | .ok h2 => downloadAll cfg rest h2

/-- Final state of a run: the process exit code (`none` for an uncaught
exception) and the on-disk ledger after the run. -/
structure RunDone where
  exit_code : Option Nat
  disk : SearchHistory

/-- The release loop of `main` with the final ledger flush: each release
carries its network oracle; a title-less release is skipped; `exit(1)`
inside `search` or an uncaught exception terminates the process without
rewriting the on-disk ledger, which is rewritten (from the in-memory
ledger) only after the loop completes. -/
def runAll (cfg : Config) :
    List (LocalReleaseData × NetResp) → SearchHistory → SearchHistory → RunDone
  | [], h, _ => ⟨some 0, h⟩
  | (lrd, net) :: rest, h, disk =>
    if lrd.guessed_data.title.isNone then runAll cfg rest h disk
    else
      let s := search cfg lrd h net
      match s.outcome with
      | .exited c => ⟨some c, disk⟩
      | .err => ⟨none, disk⟩
      | .ok results =>
        match downloadAll cfg results s.hist with
        | .error _ => ⟨none, disk⟩
        | .ok h2 => runAll cfg rest h2 disk

/- ------------------------------------------------------------------ -/
/- Concrete fixtures used by witnesses and counterexamples             -/
/- ------------------------------------------------------------------ -/

/-- A ledger with nothing recorded yet. -/
def emptyHist : SearchHistory := ⟨[], fun _ => none⟩

/-- A typical guessed movie. -/
def gdMovie : GuessedData :=
  { title := some "Movie Name", year := some 2020, type := "movie",
    season := none, episode := none }

/-- A typical local release descriptor. -/
def lrdEx : LocalReleaseData :=
  { main_path := "/data/Show.S01.mkv", basename := "Show.S01.mkv",
    size := some 1000, guessed_data := gdMovie }

/-- Default configuration: history honored, default tolerance. -/
def cfgBase : Config :=
  { parse_dir := false, ignore_history := false, strict_size := false,
    trackers := none, jackett_url := "http://localhost:9117", api_key := "k" }

/-- `--ignore-history` configuration. -/
def cfgIgnore : Config := { cfgBase with ignore_history := true }

/-- `--strict-size` configuration. -/
def cfgStrict : Config := { cfgBase with strict_size := true }

/-- Candidate result with a given tracker and size. -/
def mkResult (tracker : String) (size : Int) : RawResult :=
  { Tracker := tracker, TrackerId := "tid", CategoryDesc := "Movies",
    Title := "T", Link := some "http://dl", Details := "http://tr/d?id=1",
    Category := 2000, Size := size, Imdb := none }

/-- Candidate whose details URL has no path component. -/
def resHost : RawResult := { mkResult "T" 0 with Details := "http://host" }

/-- Candidate reached through a mirror host, tracked under `"t1"`. -/
def resMirror : RawResult :=
  { Tracker := "T", TrackerId := "t1", CategoryDesc := "Movies", Title := "T",
    Link := some "http://dl", Details := "http://mirror9.example/details?id=55",
    Category := 2000, Size := 0, Imdb := none }

/-- The ledger produced by recording `"/c"` under tracker `"t1"` in an empty
ledger. -/
def histW : SearchHistory :=
  ⟨[], fun t => if t = "t1" then some ["/c"] else none⟩

/-- A local release whose guessed type is neither movie nor episode. -/
def lrdMusic : LocalReleaseData :=
  { lrdEx with guessed_data := { gdMovie with type := "music" } }

/-- The ledger invariant of the spec: no duplicate searched basename, and no
duplicate path under any tracker of the download history. -/
def Inv (h : SearchHistory) : Prop :=
  h.basenames_searched.Nodup ∧
    ∀ t l, h.download_history t = some l → l.Nodup

/- ------------------------------------------------------------------ -/
/- Helper lemmas                                                       -/
/- ------------------------------------------------------------------ -/

theorem schemeStrip_http (r : List Char) :
    schemeStrip ('h' :: 't' :: 't' :: 'p' :: ':' :: '/' :: '/' :: r) = some r := rfl

theorem schemeStrip_https (r : List Char) :
    schemeStrip ('h' :: 't' :: 't' :: 'p' :: 's' :: ':' :: '/' :: '/' :: r) = some r := rfl

theorem seg_slash (t : List Char) : seg ('/' :: t) = none := rfl

theorem seg_append (hd : List Char) (hne : hd ≠ []) (hs : '/' ∉ hd)
    (t : List Char) (hnl : '\n' ∉ ('/' :: t)) :
    seg (hd ++ '/' :: t) = some ('/' :: t) := by
  induction hd with
  | nil => exact absurd rfl hne
  | cons a tl ih =>
    have ha : ¬a = '/' := fun hcon => hs (hcon ▸ List.mem_cons_self a tl)
    rw [List.cons_append]
    simp only [seg]
    rw [if_neg ha]
    cases tl with
    | nil =>
      simp only [List.nil_append, seg_slash]
      simp only [dotPlus]
      rw [if_neg (by intro hcon; exact hnl (hcon ▸ List.mem_cons_self '/' t))]
      congr 1
      rw [List.takeWhile_eq_self_iff]
      intro x hx
      simp only [ne_eq, decide_eq_true_eq]
      exact fun hcon => hnl (hcon ▸ hx)
    | cons b tl2 =>
      rw [ih (by simp) (fun hm => hs (List.mem_cons_of_mem a hm))]

theorem url_path_parts (sc host p : String)
    (hsc : sc = "http://" ∨ sc = "https://")
    (hh : host.data ≠ []) (hs : '/' ∉ host.data)
    (t : List Char) (hp : p.data = '/' :: t) (hnl : '\n' ∉ p.data) :
    url_path (sc ++ host ++ p) = some p := by
  have hseg : seg (host.data ++ p.data) = some p.data := by
    rw [hp]
    exact seg_append host.data hh hs t (hp ▸ hnl)
  have hmk : String.mk p.data = p := by cases p; rfl
  unfold url_path
  have hdata : (sc ++ host ++ p).data = sc.data ++ (host.data ++ p.data) := by
    simp [String.data_append, List.append_assoc]
  rw [hdata]
  rcases hsc with h | h <;> subst h
  · have hscd : ("http://" : String).data = ['h', 't', 't', 'p', ':', '/', '/'] := rfl
    rw [hscd]
    simp only [List.cons_append, List.nil_append, schemeStrip_http]
    rw [hseg]
    simp [hmk]
  · have hscd : ("https://" : String).data = ['h', 't', 't', 'p', 's', ':', '/', '/'] := rfl
    rw [hscd]
    simp only [List.cons_append, List.nil_append, schemeStrip_https]
    rw [hseg]
    simp [hmk]

theorem getLast?_decomp {α : Type} (l : List α) (a : α) (h : l.getLast? = some a) :
    l = l.dropLast ++ [a] :=
  (List.dropLast_append_getLast? a (Option.mem_def.mpr h)).symm

theorem stripDollar_eq_self (cs : List Char) (h : '\n' ∉ cs) : stripDollar cs = cs := by
  unfold stripDollar
  cases hl : cs.getLast? with
  | none => rfl
  | some c =>
    have hc : c ∈ cs := by
      rw [getLast?_decomp cs c hl]
      exact List.mem_append_right _ (List.mem_singleton.mpr rfl)
    have hne : ¬c = '\n' := fun hEq => h (hEq ▸ hc)
    show (if c = '\n' then cs.dropLast else cs) = cs
    rw [if_neg hne]

theorem findGroup1_all : ∀ (rest acc : List Char), rest ≠ [] → '\n' ∉ rest →
    (∀ pre suf, rest = pre ++ suf → pre ≠ [] → bracketTail suf = false) →
    findGroup1 acc rest = some (acc ++ rest) := by
  intro rest
  induction rest with
  | nil => intro acc h; exact absurd rfl h
  | cons c tl ih =>
    intro acc _ hnl hbr
    have hc : ¬c = '\n' := fun h => hnl (h ▸ List.mem_cons_self c tl)
    simp only [findGroup1]
    rw [if_neg hc]
    cases tl with
    | nil =>
      have hcond : bracketTail ([] : List Char) = true ∨ stripDollar ([] : List Char) = [] :=
        Or.inr rfl
      rw [if_pos hcond]
    | cons d tl2 =>
      have hbt : bracketTail (d :: tl2) = false := hbr [c] (d :: tl2) rfl (by simp)
      have hsd : stripDollar (d :: tl2) = d :: tl2 :=
        stripDollar_eq_self _ (fun hm => hnl (List.mem_cons_of_mem _ hm))
      rw [if_neg (by rw [hbt, hsd]; simp)]
      rw [ih (acc ++ [c]) (by simp) (fun hm => hnl (List.mem_cons_of_mem _ hm))
        (fun pre suf hEq hpre =>
          hbr (c :: pre) suf (by rw [hEq, List.cons_append]) (by simp))]
      simp

/-- `_is_skip_worthy` is exactly the claimed skip condition. -/
theorem is_skip_worthy_iff (cfg : Config) (lrd : LocalReleaseData) (h : SearchHistory) :
    is_skip_worthy cfg lrd h = true ↔
      ((lrd.basename ∈ h.basenames_searched ∧ cfg.ignore_history = false ∧
          cfg.parse_dir = true) ∨ lrd.size = none) := by
  unfold is_skip_worthy is_file_previously_searched
  simp only [Bool.or_eq_true, Bool.and_eq_true, Bool.not_eq_true', decide_eq_true_eq,
    Option.isNone_iff_eq_none]
  tauto

/-- Lines 148-151 of `search`: the basename list after recording. -/
theorem record_basename_spec (bn : String) (h : SearchHistory) :
    (record_basename bn h).basenames_searched =
      (if bn ∈ h.basenames_searched then h.basenames_searched
       else h.basenames_searched ++ [bn]) ∧
    bn ∈ (record_basename bn h).basenames_searched := by
  unfold record_basename
  by_cases hm : bn ∈ h.basenames_searched <;> simp [hm]

/-- `search` when nothing forces a skip or an exception before the request:
the remaining behavior is a function of the network oracle. -/
theorem search_net (cfg : Config) (lrd : LocalReleaseData) (h : SearchHistory)
    (net : NetResp) (title : String) (cat : Int)
    (hs : is_skip_worthy cfg lrd h = false)
    (ht : lrd.guessed_data.title = some title)
    (hc : category_types.lookup lrd.guessed_data.type = some cat) :
    search cfg lrd h net =
      match net with
      | .failure => ⟨true, .ok [], h⟩
      | .badJson => ⟨true, .ok [], h⟩
      | .ok indexers results =>
        if indexers.isEmpty then ⟨true, .exited 1, h⟩
        else
          let h2 := record_basename lrd.basename h
          match lrd.size with
          | none => ⟨true, .err, h2⟩
          | some size =>
            ⟨true, .ok (get_matching_results cfg (trim_results results) size), h2⟩ := by
  unfold search get_full_search_url
  rw [hs, ht, hc]
  simp

/-- All paths of `search` either leave the ledger alone or record the
basename. -/
theorem search_hist_cases (cfg : Config) (lrd : LocalReleaseData)
    (h : SearchHistory) (net : NetResp) :
    (search cfg lrd h net).hist = h ∨
      (search cfg lrd h net).hist = record_basename lrd.basename h := by
  by_cases hs : is_skip_worthy cfg lrd h = true
  · simp [search, hs]
  · have hs' : is_skip_worthy cfg lrd h = false := by
      revert hs; cases is_skip_worthy cfg lrd h <;> simp
    simp only [search, hs']
    cases ht : lrd.guessed_data.title with
    | none => simp
    | some title =>
      simp only []
      cases hu : get_full_search_url cfg (title ++ (match lrd.guessed_data.year with
        | some y => " " ++ toString y
        | none => "")) lrd with
      | none => simp
      | some v =>
        cases net with
        | failure => simp
        | badJson => simp
        | ok indexers results =>
          by_cases hie : indexers.isEmpty <;>
            cases hsize : lrd.size <;> simp [hie, hsize]

/-- When nothing forces a skip, `search` either reaches the network request
or fails with an exception before it — it never silently returns the empty
list without requesting. -/
theorem search_not_skip_shape (cfg : Config) (lrd : LocalReleaseData)
    (h : SearchHistory) (net : NetResp)
    (hs' : is_skip_worthy cfg lrd h = false) :
    (search cfg lrd h net).requested = true ∨
      (search cfg lrd h net).outcome = .err := by
  simp only [search, hs']
  cases ht : lrd.guessed_data.title with
  | none => simp
  | some title =>
    simp only []
    cases hu : get_full_search_url cfg (title ++ (match lrd.guessed_data.year with
      | some y => " " ++ toString y
      | none => "")) lrd with
    | none => simp
    | some v =>
      cases net with
      | failure => simp
      | badJson => simp
      | ok indexers results =>
        by_cases hie : indexers.isEmpty <;>
          cases hsize : lrd.size <;> simp [hie, hsize]

/- ------------------------------------------------------------------ -/
/- Claim theorems                                                      -/
/- ------------------------------------------------------------------ -/

/-- C2: a candidate is returned by the match engine iff its size differs
from the local size by at most the tolerance (0 in strict mode, 5 MiB
otherwise, doubled for the Blutopia tracker); at the boundaries, a 1-byte
difference does not match in strict mode, exactly 5 MiB matches and
5 MiB + 1 does not in default mode, and the bound is doubled for the
imprecise tracker. -/
theorem size_tolerance_matching :
    (∀ (cfg : Config) (results : List RawResult) (s : Int) (r : RawResult),
      r ∈ get_matching_results cfg results s ↔
        (r ∈ results ∧ (r.Size - s).natAbs ≤
          (if r.Tracker = "Blutopia" then 2 else 1) *
            (if cfg.strict_size then 0 else 5 * 1024 ^ 2))) ∧
    get_matching_results cfgStrict [mkResult "T" 1] 0 = [] ∧
    get_matching_results cfgStrict [mkResult "T" 0] 0 = [mkResult "T" 0] ∧
    get_matching_results cfgBase [mkResult "T" 5242880] 0 = [mkResult "T" 5242880] ∧
    get_matching_results cfgBase [mkResult "T" 5242881] 0 = [] ∧
    get_matching_results cfgBase [mkResult "Blutopia" 10485760] 0 =
      [mkResult "Blutopia" 10485760] ∧
    get_matching_results cfgBase [mkResult "Blutopia" 10485761] 0 = [] := by
  refine ⟨?_, by decide, by decide, by decide, by decide, by decide, by decide⟩
  intro cfg results s r
  simp only [get_matching_results, List.mem_filter, decide_eq_true_eq]
  refine and_congr_right (fun _ => ?_)
  unfold max_size_difference size_differences_strictness MiB
  split_ifs <;> omega

/-- C8: with `"Name.torrent"` taken, the collision loop yields
`"Name (1).torrent"`; with that also taken, `"Name (2).torrent"`. -/
theorem filename_collision_disambiguation :
    validate_path ["Name.torrent"] "Name.torrent" = "Name (1).torrent" ∧
    validate_path ["Name.torrent", "Name (1).torrent"] "Name.torrent" =
      "Name (2).torrent" := ⟨by decide, by decide⟩

/-- C10 counterexample: the details URL `"http://host"` has no characters
after its authority, yet the regex matches via backtracking (group 1 is
`"t"`), so the history lookup returns normally instead of raising. -/
theorem url_no_path_matches_counterexample :
    is_torrent_previously_grabbed resHost emptyHist = .ok false ∧
    url_path "http://host" = some "t" := ⟨rfl, rfl⟩

/-- C10 (amended): the history lookup and the history append raise exactly
when the URL-path regex has no match; a non-http URL or a URL with at most
one character after the scheme has no match, while `"http://host"` does
match, capturing the tail of the host. -/
theorem url_shape_error_iff :
    (∀ (r : RawResult) (h : SearchHistory),
      is_torrent_previously_grabbed r h = .error () ↔ url_path r.Details = none) ∧
    (∀ (u tid : String) (h : SearchHistory),
      append_to_download_history u tid h = .error () ↔ url_path u = none) ∧
    url_path "ftp://a/b" = none ∧ url_path "http://x" = none ∧
    url_path "http://host" = some "t" := by
  refine ⟨?_, ?_, rfl, rfl, rfl⟩
  · intro r h
    unfold is_torrent_previously_grabbed
    cases hu : url_path r.Details with
    | none => simp
    | some p => cases hd : h.download_history r.TrackerId <;> simp
  · intro u tid h
    unfold append_to_download_history
    cases hu : url_path u <;> simp

/-- C5: a details URL of the shape scheme ++ host ++ path (nonempty
slash-free host, path starting with `/`) normalizes to exactly the path,
independently of scheme and host, and the previously-grabbed check finds an
entry appended under a different scheme/host with the same path. -/
theorem details_url_normalization
    (sc1 sc2 host1 host2 p tid : String) (hist : SearchHistory) (r : RawResult)
    (hsc1 : sc1 = "http://" ∨ sc1 = "https://")
    (hsc2 : sc2 = "http://" ∨ sc2 = "https://")
    (hh1 : host1.data ≠ []) (hs1 : '/' ∉ host1.data)
    (hh2 : host2.data ≠ []) (hs2 : '/' ∉ host2.data)
    (t : List Char) (hp : p.data = '/' :: t) (hnl : '\n' ∉ p.data)
    (hrD : r.Details = sc2 ++ host2 ++ p) (hrT : r.TrackerId = tid) :
    url_path (sc1 ++ host1 ++ p) = some p ∧
    url_path (sc2 ++ host2 ++ p) = some p ∧
    ∀ h2, append_to_download_history (sc1 ++ host1 ++ p) tid hist = .ok h2 →
      is_torrent_previously_grabbed r h2 = .ok true := by
  have u1 := url_path_parts sc1 host1 p hsc1 hh1 hs1 t hp hnl
  have u2 := url_path_parts sc2 host2 p hsc2 hh2 hs2 t hp hnl
  refine ⟨u1, u2, ?_⟩
  intro h2 happ
  unfold append_to_download_history at happ
  rw [u1] at happ
  simp only [Except.ok.injEq] at happ
  subst happ
  unfold is_torrent_previously_grabbed
  rw [hrD, u2, hrT]
  simp only [if_pos rfl]
  by_cases hm : p ∈ (hist.download_history tid).getD [] <;> simp [hm]

/-- C5 witness: the spec's two example URLs at concrete inputs. -/
theorem details_url_normalization_witness :
    url_path "http://tracker1.example/details?id=55" = some "/details?id=55" ∧
    url_path "http://mirror9.example/details?id=55" = some "/details?id=55" ∧
    ∀ h2, append_to_download_history "http://tracker1.example/details?id=55" "t1"
        emptyHist = .ok h2 →
      is_torrent_previously_grabbed resMirror h2 = .ok true := by
  have hc1 : ("http://" ++ "tracker1.example" ++ "/details?id=55" : String) =
      "http://tracker1.example/details?id=55" := by decide
  have hc2 : ("http://" ++ "mirror9.example" ++ "/details?id=55" : String) =
      "http://mirror9.example/details?id=55" := by decide
  have := details_url_normalization "http://" "http://" "tracker1.example"
    "mirror9.example" "/details?id=55" "t1" emptyHist resMirror
    (Or.inl rfl) (Or.inl rfl) (by decide) (by decide) (by decide) (by decide)
    ("details?id=55" : String).data rfl (by decide) (hc2.symm) rfl
  rw [hc1, hc2] at this
  exact this

/-- C4: `search` returns the empty list without reaching the network
request exactly when the basename was already searched with the history
honored in parse-dir mode, or the release size is unknown. -/
theorem skip_conditions_iff (cfg : Config) (lrd : LocalReleaseData)
    (h : SearchHistory) (net : NetResp) :
    ((search cfg lrd h net).requested = false ∧
      (search cfg lrd h net).outcome = .ok []) ↔
      ((lrd.basename ∈ h.basenames_searched ∧ cfg.ignore_history = false ∧
          cfg.parse_dir = true) ∨ lrd.size = none) := by
  rw [← is_skip_worthy_iff cfg lrd h]
  by_cases hs : is_skip_worthy cfg lrd h = true
  · simp [search, hs]
  · have hs' : is_skip_worthy cfg lrd h = false := by
      revert hs; cases is_skip_worthy cfg lrd h <;> simp
    rw [hs']
    simp only [Bool.false_eq_true, iff_false]
    rintro ⟨h1, h2⟩
    rcases search_not_skip_shape cfg lrd h net hs' with hr | ho
    · rw [h1] at hr; exact Bool.noConfusion hr
    · rw [h2] at ho; exact SearchOutcome.noConfusion ho

/-- C1 counterexample: with history-ignoring mode active and a well-formed
response (non-empty indexer list), the basename is still recorded, contrary
to the claim that it is not recorded in that mode. -/
theorem search_ignore_history_still_records :
    cfgIgnore.ignore_history = true ∧
    emptyHist.basenames_searched = [] ∧
    (search cfgIgnore lrdEx emptyHist (NetResp.ok ["Idx"] [])).hist.basenames_searched =
      ["Show.S01.mkv"] := ⟨rfl, rfl, by decide⟩

/-- C1 (amended): after any query answered by a well-formed response with a
non-empty indexer list, the basename is recorded into the searched-basename
list regardless of history-ignoring mode, and a basename already present is
not added a second time. -/
theorem search_records_basename (cfg : Config) (lrd : LocalReleaseData)
    (h : SearchHistory) (idx : List String) (res : List RawResult)
    (hreq : (search cfg lrd h (NetResp.ok idx res)).requested = true)
    (hidx : idx ≠ []) :
    (search cfg lrd h (NetResp.ok idx res)).hist.basenames_searched =
      (if lrd.basename ∈ h.basenames_searched then h.basenames_searched
       else h.basenames_searched ++ [lrd.basename]) ∧
    lrd.basename ∈ (search cfg lrd h (NetResp.ok idx res)).hist.basenames_searched := by
  have hie : idx.isEmpty = false := by
    cases idx with
    | nil => exact absurd rfl hidx
    | cons a l => rfl
  by_cases hs : is_skip_worthy cfg lrd h = true
  · simp [search, hs] at hreq
  · have hs' : is_skip_worthy cfg lrd h = false := by
      revert hs; cases is_skip_worthy cfg lrd h <;> simp
    cases ht : lrd.guessed_data.title with
    | none => simp [search, hs', ht] at hreq
    | some title =>
      cases hc : category_types.lookup lrd.guessed_data.type with
      | none =>
        have hu : get_full_search_url cfg (title ++ (match lrd.guessed_data.year with
            | some y => " " ++ toString y
            | none => "")) lrd = none := by
          unfold get_full_search_url; rw [hc]
        simp [search, hs', ht, hu] at hreq
      | some cat =>
        rw [search_net cfg lrd h (NetResp.ok idx res) title cat hs' ht hc]
        simp only [hie, Bool.false_eq_true, if_false]
        cases hsize : lrd.size <;> simp only [hsize] <;>
          exact record_basename_spec lrd.basename h

/-- C1 witness: concrete run in which the basename gets recorded exactly
once. -/
theorem search_records_basename_witness :
    (search cfgBase lrdEx emptyHist (NetResp.ok ["Idx"] [])).requested = true ∧
    (["Idx"] : List String) ≠ [] ∧
    (search cfgBase lrdEx emptyHist (NetResp.ok ["Idx"] [])).hist.basenames_searched =
      (if lrdEx.basename ∈ emptyHist.basenames_searched then emptyHist.basenames_searched
       else emptyHist.basenames_searched ++ [lrdEx.basename]) ∧
    lrdEx.basename ∈
      (search cfgBase lrdEx emptyHist (NetResp.ok ["Idx"] [])).hist.basenames_searched := by
  refine ⟨by decide, by decide, ?_, ?_⟩
  · exact (search_records_basename cfgBase lrdEx emptyHist ["Idx"] []
      (by decide) (by decide)).1
  · exact (search_records_basename cfgBase lrdEx emptyHist ["Idx"] []
      (by decide) (by decide)).2

/-- C3: a well-formed response with an empty active-indexer list makes
`search` exit with status 1 without touching the in-memory ledger, and the
whole run then terminates with exit code 1 leaving the on-disk ledger
exactly as previously flushed. -/
theorem empty_indexers_fatal (cfg : Config) (lrd : LocalReleaseData)
    (h disk : SearchHistory) (res : List RawResult)
    (rest : List (LocalReleaseData × NetResp)) (title : String) (cat : Int)
    (hs : is_skip_worthy cfg lrd h = false)
    (ht : lrd.guessed_data.title = some title)
    (hc : category_types.lookup lrd.guessed_data.type = some cat) :
    search cfg lrd h (NetResp.ok [] res) = ⟨true, .exited 1, h⟩ ∧
    runAll cfg ((lrd, NetResp.ok [] res) :: rest) h disk = ⟨some 1, disk⟩ := by
  have he : search cfg lrd h (NetResp.ok [] res) = ⟨true, .exited 1, h⟩ := by
    rw [search_net cfg lrd h (NetResp.ok [] res) title cat hs ht hc]
    rfl
  refine ⟨he, ?_⟩
  simp [runAll, ht, he]

/-- C3 witness: concrete aborting run over a nonempty previously-flushed
disk ledger. -/
theorem empty_indexers_fatal_witness :
    is_skip_worthy cfgBase lrdEx emptyHist = false ∧
    lrdEx.guessed_data.title = some "Movie Name" ∧
    category_types.lookup lrdEx.guessed_data.type = some 2000 ∧
    search cfgBase lrdEx emptyHist (NetResp.ok [] []) = ⟨true, .exited 1, emptyHist⟩ ∧
    runAll cfgBase [(lrdEx, NetResp.ok [] [])] emptyHist histW = ⟨some 1, histW⟩ := by
  refine ⟨by decide, rfl, by decide, ?_, ?_⟩
  · exact (empty_indexers_fatal cfgBase lrdEx emptyHist histW [] [] "Movie Name" 2000
      (by decide) rfl (by decide)).1
  · exact (empty_indexers_fatal cfgBase lrdEx emptyHist histW [] [] "Movie Name" 2000
      (by decide) rfl (by decide)).2

/-- C6: the ledger invariant (no duplicate basename, no duplicate path per
tracker) is preserved by the basename recording of `search` and by the
download-history append, from any invariant-satisfying ledger, in any mode. -/
theorem ledger_invariant_preserved (cfg : Config) (lrd : LocalReleaseData)
    (h : SearchHistory) (net : NetResp) (u tid : String) (h2 : SearchHistory)
    (hInv : Inv h) :
    Inv (search cfg lrd h net).hist ∧
    (append_to_download_history u tid h = .ok h2 → Inv h2) := by
  obtain ⟨hb, hd⟩ := hInv
  constructor
  · rcases search_hist_cases cfg lrd h net with he | he <;> rw [he]
    · exact ⟨hb, hd⟩
    · unfold record_basename
      by_cases hm : lrd.basename ∈ h.basenames_searched
      · rw [if_pos hm]; exact ⟨hb, hd⟩
      · rw [if_neg hm]
        refine ⟨?_, hd⟩
        simp only [List.nodup_append, List.nodup_singleton, true_and]
        exact ⟨hb, by simp [hm]⟩
  · intro happ
    unfold append_to_download_history at happ
    cases hu : url_path u with
    | none => rw [hu] at happ; exact absurd happ (by simp)
    | some p =>
      rw [hu] at happ
      simp only [Except.ok.injEq] at happ
      subst happ
      refine ⟨hb, ?_⟩
      intro t l hl
      have hbase : ((h.download_history tid).getD []).Nodup := by
        cases hdd : h.download_history tid with
        | none => simp [hdd]
        | some l0 => simpa [hdd] using hd tid l0 hdd
      dsimp only at hl
      by_cases htid : t = tid
      · rw [if_pos htid] at hl
        have hln : l = (if p ∈ (h.download_history tid).getD []
            then (h.download_history tid).getD []
            else (h.download_history tid).getD [] ++ [p]) := by
          injection hl with hl2; exact hl2.symm
        rw [hln]
        by_cases hm : p ∈ (h.download_history tid).getD []
        · rw [if_pos hm]; exact hbase
        · rw [if_neg hm]
          simp only [List.nodup_append, List.nodup_singleton, true_and]
          exact ⟨hbase, by simp [hm]⟩
      · rw [if_neg htid] at hl
        exact hd t l hl

/-- C6 witness: the invariant at the empty ledger, through a concrete
search and a concrete append. -/
theorem ledger_invariant_preserved_witness :
    Inv (search cfgBase lrdEx emptyHist (NetResp.ok ["Idx"] [])).hist ∧
    (append_to_download_history "http://a.b/c" "t1" emptyHist = .ok histW →
      Inv histW) :=
  ledger_invariant_preserved cfgBase lrdEx emptyHist (NetResp.ok ["Idx"] [])
    "http://a.b/c" "t1" histW
    ⟨List.nodup_nil, fun t l hl => by simp [emptyHist] at hl⟩

/-- C9: for a guessed type other than movie or episode, the category dict
has no entry, building the search URL raises a `KeyError`, and `search`
fails with an exception before any network request. -/
theorem unknown_category_raises (cfg : Config) (lrd : LocalReleaseData)
    (h : SearchHistory) (net : NetResp) (title : String)
    (hty1 : lrd.guessed_data.type ≠ "movie")
    (hty2 : lrd.guessed_data.type ≠ "episode")
    (hs : is_skip_worthy cfg lrd h = false)
    (ht : lrd.guessed_data.title = some title) :
    category_types.lookup lrd.guessed_data.type = none ∧
    (∀ q, get_full_search_url cfg q lrd = none) ∧
    (search cfg lrd h net).outcome = .err ∧
    (search cfg lrd h net).requested = false := by
  have h1 : (lrd.guessed_data.type == "movie") = false := by
    rw [beq_eq_false_iff_ne]; exact hty1
  have h2 : (lrd.guessed_data.type == "episode") = false := by
    rw [beq_eq_false_iff_ne]; exact hty2
  have hlk : category_types.lookup lrd.guessed_data.type = none := by
    simp [category_types, List.lookup, h1, h2]
  have hurl : ∀ q, get_full_search_url cfg q lrd = none := by
    intro q; unfold get_full_search_url; rw [hlk]
  refine ⟨hlk, hurl, ?_, ?_⟩ <;> simp [search, hs, ht, hurl]

/-- C9 witness: a release guessed as music reaches the URL construction and
fails there. -/
theorem unknown_category_raises_witness :
    lrdMusic.guessed_data.type ≠ "movie" ∧ lrdMusic.guessed_data.type ≠ "episode" ∧
    is_skip_worthy cfgBase lrdMusic emptyHist = false ∧
    lrdMusic.guessed_data.title = some "Movie Name" ∧
    (search cfgBase lrdMusic emptyHist NetResp.failure).outcome = .err ∧
    (search cfgBase lrdMusic emptyHist NetResp.failure).requested = false := by
  refine ⟨by decide, by decide, by decide, rfl, ?_, ?_⟩
  · exact (unknown_category_raises cfgBase lrdMusic emptyHist NetResp.failure
      "Movie Name" (by decide) (by decide) (by decide) rfl).2.2.1
  · exact (unknown_category_raises cfgBase lrdMusic emptyHist NetResp.failure
      "Movie Name" (by decide) (by decide) (by decide) rfl).2.2.2

/-- C7: title canonicalization strips the trailing bracketed slash-bearing
annotation of the spec's example and leaves the bare title unchanged; more
generally, any newline-free title admitting no decomposition as a nonempty
prefix followed by a trailing bracket block containing a slash is returned
unchanged. -/
theorem title_canonicalization :
    reformat_release_name "Movie.Name.720p [Golden Popcorn / 720p]" = "Movie.Name.720p" ∧
    reformat_release_name "Movie.Name.720p" = "Movie.Name.720p" ∧
    (∀ s : String, '\n' ∉ s.data →
      (∀ a m : List Char, s.data = a ++ ' ' :: '[' :: (m ++ [']']) →
        a = [] ∨ '/' ∉ m) →
      reformat_release_name s = s) := by
  refine ⟨by decide, by decide, ?_⟩
  intro s hnl hno
  unfold reformat_release_name
  cases hd : s.data with
  | nil => rfl
  | cons c cs =>
    have hbr : ∀ pre suf, s.data = pre ++ suf → pre ≠ [] → bracketTail suf = false := by
      intro pre suf hEq hpre
      by_contra hcon
      have hbt : bracketTail suf = true := by
        revert hcon; cases bracketTail suf <;> simp
      cases suf with
      | nil => simp [bracketTail] at hbt
      | cons c1 suf1 =>
        cases suf1 with
        | nil => simp [bracketTail] at hbt
        | cons c2 rest =>
          simp only [bracketTail, Bool.and_eq_true, decide_eq_true_eq] at hbt
          obtain ⟨⟨hc1, hc2⟩, ⟨hA, hB⟩, hC⟩ := hbt
          have hnlr : '\n' ∉ rest := by
            intro hm
            apply hnl
            rw [hEq]
            exact List.mem_append_right pre
              (List.mem_cons_of_mem c1 (List.mem_cons_of_mem c2 hm))
          rw [stripDollar_eq_self rest hnlr] at hA hB
          have hrd : rest = rest.dropLast ++ [']'] := getLast?_decomp rest ']' hA
          have hdec := hno pre rest.dropLast (by
            rw [hEq, hc1, hc2]
            rw [← hrd])
          rcases hdec with h0 | h0
          · exact hpre h0
          · exact h0 hB
    rw [← hd]
    rw [findGroup1_all s.data [] (by rw [hd]; simp) hnl hbr]
    simp only [List.nil_append]

/-- C7 witness: the unchanged branch at a concrete bracket-free title. -/
theorem title_canonicalization_witness :
    ('\n' ∉ ("ok" : String).data) ∧ reformat_release_name "ok" = "ok" := by
  refine ⟨by decide, ?_⟩
  exact (title_canonicalization).2.2 "ok" (by decide)
    (fun a m hEq => absurd (congrArg List.length hEq)
      (by simp [List.length_append]; omega))

end CrossSeedAutoDL
